import Mathlib

/-!
Shallow embedding of the core of the MARLEY fork (neutrino/dark-matter
nucleus event generator): the nuclear-reaction cross-section helpers and
event creation (src/src/NuclearReaction.cc), the electron elastic reaction
(same file), the two-body kinematics helper (src/Reaction.cc), the gamma
transition classifier (src/TMarleyNuclearPhysics.cc) and the Particle
accessor (Particle header).  C++ `double` values are modelled as real
numbers; `std::sqrt` as `Real.sqrt`; exceptions as `Except`/tagged error
values; the out-parameters of the C++ functions become extra components of
the returned value.  Division by zero and square roots of negative numbers
are totalized the Lean way (0), mirroring the places the source explicitly
clamps (`marley_utils::real_sqrt`); `std::isnan` has no real-valued
counterpart, so the NaN-recovery branch of `summed_xs_helper` is inert in
the model and is recorded as a comment at its place.
-/

namespace Marley

noncomputable section

/-- Constant `marley_utils::pi` (`M_PI` from marley_utils.hh), idealized as the
real number pi. -/
def pi : ℝ := Real.pi

/-- Fermi coupling constant `marley_utils::GF` in MeV^(-2) (marley_utils.hh). -/
def GF : ℝ := 1.16637e-11

/-- Square of the Fermi coupling constant, `marley_utils::GF2`. -/
def GF2 : ℝ := GF * GF

/-- CKM matrix element `marley_utils::Vud` (marley_utils.hh). -/
def Vud : ℝ := 0.97427

/-- Square of `Vud`, `marley_utils::Vud2`. -/
def Vud2 : ℝ := Vud * Vud

/-- Weak mixing angle `marley_utils::sin2thetaw` (marley_utils.hh). -/
def sin2thetaw : ℝ := 0.23155

/-- Fine structure constant `marley_utils::alpha` (marley_utils.hh). -/
def alpha : ℝ := 7.2973525698e-3

/-- Conversion constant `marley_utils::hbar_c` in MeV*fm (marley_utils.hh). -/
def hbar_c : ℝ := 197.3269718

/-- Nuclear radius parameter `marley_utils::r0` in fm (marley_utils.hh). -/
def r0 : ℝ := 1.2

/-- Constant `marley_utils::ONE_HALF` (marley_utils.hh). -/
def ONE_HALF : ℝ := 1/2

/-- Constant `marley_utils::ONE_THIRD` (marley_utils.hh). -/
def ONE_THIRD : ℝ := 1/3

/-- PDG code `marley_utils::ELECTRON` (marley_utils.hh). -/
def ELECTRON : ℤ := 11

/-- Modelled from the spec: `marley_utils::real_sqrt` is declared in
marley_utils.hh (the implementation file is not under src/) with the comment
that a negative argument is assumed due to roundoff error and yields zero
rather than NaN. -/
def real_sqrt (num : ℝ) : ℝ := if num < 0 then 0 else Real.sqrt num

/-- Embedding of `marley::Reaction::ProcessType` (Reaction.hh): the numeric
values are NeutrinoCC = 0, AntiNeutrinoCC = 1, NC = 2, NuElectronElastic = 3,
DM = 4; the constructor compares `process_type_ == 4`, i.e. against DM. -/
inductive ProcessType
  | NeutrinoCC
  | AntiNeutrinoCC
  | NC
  | NuElectronElastic
  | DM
  deriving DecidableEq

/-- Embedding of `marley::MatrixElement::TransitionType` (Fermi or
Gamow-Teller reduced matrix element). -/
inductive METype
  | FERMI
  | GAMOW_TELLER
  deriving DecidableEq

/-- Embedding of `marley::MatrixElement`: a nuclear level energy, a reduced
transition strength B(F)+B(GT) and the transition type.  The optional link to
a discrete Level object is owned by the external structure database and does
not enter the cross-section formulas embedded here. -/
structure MatrixElement where
  level_energy : ℝ
  strength : ℝ
  me_type : METype

instance : Inhabited MatrixElement := ⟨⟨0, 0, METype.FERMI⟩⟩

/-- Embedding of `marley::NuclearReaction::CoulombMode`. -/
inductive CoulombMode
  | NO_CORRECTION
  | FERMI_FUNCTION
  | EMA
  | MEMA
  | FERMI_AND_EMA
  | FERMI_AND_MEMA
  deriving DecidableEq

/-- Embedding of the state of a `marley::NuclearReaction` after construction:
the PDG codes and process type, the charges and mass numbers Zi/Ai/Zf/Af
derived from the PDG codes, the four rest masses obtained from the mass
table, the threshold computed by the constructor, the shared matrix-element
list and the configured Coulomb-correction mode. -/
structure NuclearReaction where
  process_type : ProcessType
  pdg_a : ℤ
  pdg_b : ℤ
  pdg_c : ℤ
  pdg_d : ℤ
  q_d : ℤ
  Zi : ℤ
  Ai : ℤ
  Zf : ℤ
  Af : ℤ
  ma : ℝ
  mb : ℝ
  mc : ℝ
  md_gs : ℝ
  KEa_threshold : ℝ
  matrix_elements : List MatrixElement
  coulomb_mode : CoulombMode

/-- Interface of the external `marley::MassTable` collaborator used by the
NuclearReaction constructor: `get_particle_mass` and `get_atomic_mass`. -/
structure MassTable where
  particleMass : ℤ → ℝ
  atomicMass : ℤ → ℝ

/-- Embedding of the `marley::NuclearReaction` constructor
(NuclearReaction.cc lines 66-151): derives Zi/Ai/Zf/Af from the PDG codes,
looks the masses up through the mass table (atomic mass when the PDG code
exceeds 10^9, with the residue ground-state mass corrected by q_d electron
masses in the atomic case), and sets the threshold: for `process_type_ == 4`
(ProcessType::DM) it sets `KEa_threshold_ = md_gs_ + mc_ - mb_`, otherwise
`KEa_threshold_ = ((mc_ + md_gs_)^2 - (ma_ + mb_)^2)/(2*mb_)`. -/
def NuclearReaction.make (mt : MassTable) (pt : ProcessType)
    (pdg_a pdg_b pdg_c pdg_d q_d : ℤ) (mat_els : List MatrixElement)
    (cmode : CoulombMode) : NuclearReaction :=
  let ma := mt.particleMass pdg_a
  let mc := mt.particleMass pdg_c
  let mb := if pdg_b > 1000000000 then mt.atomicMass pdg_b
            else mt.particleMass pdg_b
  let md_gs := if pdg_d > 1000000000 then
                 mt.atomicMass pdg_d - (q_d : ℝ) * mt.particleMass ELECTRON
               else mt.particleMass pdg_d
  { process_type := pt
    pdg_a := pdg_a
    pdg_b := pdg_b
    pdg_c := pdg_c
    pdg_d := pdg_d
    q_d := q_d
    Zi := (pdg_b % 10000000) / 10000
    Ai := (pdg_b % 10000) / 10
    Zf := (pdg_d % 10000000) / 10000
    Af := (pdg_d % 10000) / 10
    ma := ma
    mb := mb
    mc := mc
    md_gs := md_gs
    KEa_threshold := if pt = ProcessType.DM then md_gs + mc - mb
                     else ((mc + md_gs)^2 - (ma + mb)^2) / (2*mb)
    matrix_elements := mat_els
    coulomb_mode := cmode }

/-- Embedding of `marley::NuclearReaction::max_level_energy`
(NuclearReaction.cc lines 194-204): the total CM energy computed from lab
quantities minus the ejectile mass and the ground-state residue mass. -/
def NuclearReaction.max_level_energy (r : NuclearReaction) (KEa : ℝ) : ℝ :=
  Real.sqrt ((r.ma + r.mb)^2 + 2*r.mb*KEa) - r.mc - r.md_gs

/-- Embedding of `marley::NuclearReaction::threshold_kinetic_energy`
(NuclearReaction.cc lines 206-208). -/
def NuclearReaction.threshold_kinetic_energy (r : NuclearReaction) : ℝ :=
  r.KEa_threshold

/-- Embedding of the helper `nuclear_radius_natural_units` (NuclearReaction.cc
lines 54-62): `r0 * A^(1/3) / hbar_c`. -/
def nuclear_radius_natural_units (A : ℤ) : ℝ :=
  r0 * (A : ℝ) ^ (ONE_THIRD : ℝ) / hbar_c

/-- Embedding of `marley::NuclearReaction::fermi_function` (NuclearReaction.cc
lines 159-187).  The custom complex gamma function `marley_utils::gamma`
(implementation file not under src/) is modelled as `Complex.Gamma`;
`std::norm` of a complex number is its squared magnitude `Complex.normSq`. -/
def NuclearReaction.fermi_function (r : NuclearReaction) (beta_c : ℝ) : ℝ :=
  let c_minus := 0 < r.pdg_c
  let gamma_c := (1 - beta_c*beta_c) ^ (-ONE_HALF : ℝ)
  let s := Real.sqrt (1 - (alpha * (r.Zf : ℝ))^2)
  let rho := nuclear_radius_natural_units r.Af
  let eta0 := alpha * (r.Zf : ℝ) / beta_c
  let eta := if c_minus then eta0 else -eta0
  let a : ℂ := ⟨s, eta⟩
  let b := Real.Gamma (1 + 2*s)
  2 * (1 + s) * (2*beta_c*gamma_c*rho*r.mc) ^ (2*s - 2 : ℝ)
    * Real.exp (pi * eta) * Complex.normSq (Complex.Gamma a) / b^2

/-- Embedding of `marley::NuclearReaction::ema_factor` (NuclearReaction.cc
lines 885-941).  The C++ out-parameter `ok` becomes the second component of
the returned pair. -/
def NuclearReaction.ema_factor (r : NuclearReaction) (beta_rel_cd : ℝ)
    (modified_ema : Bool) : ℝ × Bool :=
  let minus_c := 0 < r.pdg_c
  let R_nuc := nuclear_radius_natural_units r.Af
  let Vc0 := (-3 * (r.Zf : ℝ) * alpha) / (2 * R_nuc)
  let Vc := if minus_c then Vc0 else -Vc0
  let gamma_rel_cd := (1 - beta_rel_cd^2) ^ (-(0.5) : ℝ)
  let E_c_FNR := gamma_rel_cd * r.mc
  let p_c_FNR := beta_rel_cd * E_c_FNR
  let E_c_FNR_eff := E_c_FNR - Vc
  let ok := if E_c_FNR_eff ≥ r.mc then true else false
  let p_c_FNR_eff := real_sqrt (E_c_FNR_eff^2 - r.mc*r.mc)
  let F_EMA := (p_c_FNR_eff / p_c_FNR)^2
  let F_MEMA := (p_c_FNR_eff * E_c_FNR_eff) / (p_c_FNR * E_c_FNR)
  (if modified_ema then F_MEMA else F_EMA, ok)

/-- Embedding of `marley::NuclearReaction::coulomb_correction_factor`
(NuclearReaction.cc lines 827-882).  A thrown `marley::Error` is modelled as
`none`. -/
def NuclearReaction.coulomb_correction_factor (r : NuclearReaction)
    (beta_rel_cd : ℝ) : Option ℝ :=
  if r.coulomb_mode = CoulombMode.NO_CORRECTION then some 1
  else
    let fermi_func := r.fermi_function beta_rel_cd
    if r.coulomb_mode = CoulombMode.FERMI_FUNCTION then some fermi_func
    else
      let use_mema := r.coulomb_mode = CoulombMode.MEMA
        ∨ r.coulomb_mode = CoulombMode.FERMI_AND_MEMA
      let ema := r.ema_factor beta_rel_cd (if use_mema then true else false)
      let factor_EMA := ema.1
      let EMA_ok := ema.2
      if r.coulomb_mode = CoulombMode.EMA ∨ r.coulomb_mode = CoulombMode.MEMA
      then
        if EMA_ok then some factor_EMA else none
      else if ¬ (r.coulomb_mode = CoulombMode.FERMI_AND_EMA
          ∨ r.coulomb_mode = CoulombMode.FERMI_AND_MEMA) then none
      else if EMA_ok = false then some fermi_func
      else
        let diff_Fermi := |fermi_func - 1|
        let diff_EMA := |factor_EMA - 1|
        if diff_Fermi < diff_EMA then some fermi_func else some factor_EMA

/-- Embedding of `marley::NuclearReaction::weak_nuclear_charge`
(NuclearReaction.cc lines 946-951): `Qw = N - (1 - 4 sin^2 thetaW) Z` for the
initial nucleus. -/
def NuclearReaction.weak_nuclear_charge (r : NuclearReaction) : ℝ :=
  let Ni : ℤ := r.Ai - r.Zi
  (Ni : ℝ) - (1 - 4*sin2thetaw) * (r.Zi : ℝ)

/-- Outcome of the per-level `total_xs` overload: a returned value, a thrown
`marley::Error`, or control flowing off the end of the non-void function
without any `return` statement (undefined behaviour in C++). -/
inductive LevelXsResult
  | val (x : ℝ)
  | thrown
  | missing_return

/-- Embedding of the per-level overload
`marley::NuclearReaction::total_xs(me, KEa, beta_c_cm, check_max_E_level)`
(NuclearReaction.cc lines 520-597).  The out-parameter `beta_c_cm` becomes
the second component of the result; `beta0` is its value at the call site
(the early returns leave it untouched).  The whole computation of the
allowed-approximation cross section is guarded by
`process_type_ != ProcessType::DM`; when the process type is DM no branch
executes a return statement, which is modelled as `missing_return`. -/
def NuclearReaction.total_xs_level (r : NuclearReaction) (me : MatrixElement)
    (KEa beta0 : ℝ) (check_max_E_level : Bool) : LevelXsResult × ℝ :=
  if me.strength = 0 then (LevelXsResult.val 0, beta0)
  else if check_max_E_level = true
      ∧ me.level_energy > r.max_level_energy KEa then (LevelXsResult.val 0, beta0)
  else
    let md2 := (r.md_gs + me.level_energy)^2
    let s := (r.ma + r.mb)^2 + 2*r.mb*KEa
    let sqrt_s := Real.sqrt s
    let Eb_cm := (s + r.mb*r.mb - r.ma*r.ma) / (2 * sqrt_s)
    let Ec_cm := (s + r.mc*r.mc - md2) / (2 * sqrt_s)
    let pc_cm := real_sqrt (Ec_cm^2 - r.mc*r.mc)
    -- the source really subtracts mb*mc here, not mb*mb
    let pb_cm := real_sqrt (Eb_cm^2 - r.mb*r.mc)
    let beta_c_cm := pc_cm / Ec_cm
    let Ed_cm := sqrt_s - Ec_cm
    let pc_dot_pd := Ed_cm*Ec_cm + pc_cm^2
    let beta_rel_cd := real_sqrt (pc_dot_pd^2 - r.mc*r.mc*md2) / pc_dot_pd
    if r.process_type ≠ ProcessType.DM then
      let total_xsec := (GF2 / pi) * (Eb_cm * Ed_cm / s) * Ec_cm * pc_cm
        * me.strength
      if r.process_type = ProcessType.NeutrinoCC
          ∨ r.process_type = ProcessType.AntiNeutrinoCC then
        match r.coulomb_correction_factor beta_rel_cd with
        | some factor_C => (LevelXsResult.val (total_xsec * Vud2 * factor_C),
            beta_c_cm)
        | none => (LevelXsResult.thrown, beta_c_cm)
      else if r.process_type = ProcessType.NC then
        (LevelXsResult.val (if me.me_type = METype.FERMI then
            total_xsec * (0.25 * (r.weak_nuclear_charge)^2)
          else total_xsec), beta_c_cm)
      else (LevelXsResult.thrown, beta_c_cm)
    else (LevelXsResult.missing_return, beta_c_cm)

/-- Embedding of `marley::NuclearReaction::dm_total_xs` (NuclearReaction.cc
lines 601-780).  The out-parameter `beta_c_cm` is the second component of the
result pair and `beta0` its value at the call site.  The local variable
`double pi = 3.14159265358979323846` of the source shadows
`marley_utils::pi` inside this function and is kept as the literal `pi_loc`;
the final `return 4*marley_utils::pi*dsigmadCosBareUV` uses the global
constant.  The many computed-but-unused locals of the source (Msquared,
total_xsec, k3, p2p3, E3lab, Eelab, ...) are reproduced as let-bindings. -/
def NuclearReaction.dm_total_xs (r : NuclearReaction) (energy_level : ℝ)
    (me : MatrixElement) (KEa beta0 : ℝ) (check_max_E_level : Bool) : ℝ × ℝ :=
  if me.strength = 0 then (0, beta0)
  else if check_max_E_level = true
      ∧ me.level_energy > r.max_level_energy KEa then (0, beta0)
  else
    let md2 := (r.md_gs + energy_level)^2
    let md := r.md_gs + energy_level
    let s := (r.ma + r.mb)^2 + 2*r.mb*KEa
    let sqrt_s := Real.sqrt s
    let Eb_cm := (s + r.mb*r.mb - r.ma*r.ma) / (2 * sqrt_s)
    let Ec_cm := (s + r.mc*r.mc - md2) / (2 * sqrt_s)
    let pc_cm := real_sqrt (Ec_cm^2 - r.mc*r.mc)
    let pb_cm := real_sqrt (Eb_cm^2 - r.mb*r.mc)
    let beta_c_cm := pc_cm / Ec_cm
    let Ed_cm := sqrt_s - Ec_cm
    let pc_dot_pd := Ed_cm*Ec_cm + pc_cm^2
    let beta_rel_cd := real_sqrt (pc_dot_pd^2 - r.mc*r.mc*md2) / pc_dot_pd
    let mx := r.ma
    let m_thresh := md + 0.511 - r.mb
    let pe := real_sqrt ((m_thresh - mx)*(m_thresh - mx - 2*(0.511)))
    let mn := (939.57 : ℝ)
    let mp := (939.27 : ℝ)
    let LAMBDA := (1 : ℝ)
    let Ee := Ec_cm
    let lambda := (1.2694 : ℝ)
    let Msquared := 4*mn*mx/(LAMBDA*LAMBDA*LAMBDA*LAMBDA)
      * ( Ee*(2*mn - mp + 2*mx - Ee) - r.mc*r.mc
        + 2*lambda*(Ee*Ee - r.mc*r.mc)
        + 2*lambda*lambda*(Ee*(2*mn + mp + 2*mx - Ee) - r.mc*r.mc) )
    let total_xsec := (pe) / (16*pi*mx*r.md_gs*r.md_gs) * Msquared
    let vx := (0.001 : ℝ)
    let pi_loc := (3.14159265358979323846 : ℝ)
    let Z := (r.Zi : ℝ)
    let A := (r.Ai : ℝ)
    let me_m := (0.511 : ℝ)
    let mx_ := (10 : ℝ)
    let cos_theta := (1 : ℝ)
    let mN := r.mb - (r.Zi : ℝ)*me_m
    let mNprime := r.md_gs - (r.Zi : ℝ)*me_m
    let val := (1 : ℝ)
    let lambd := (-1.2694 : ℝ)
    let ExLab := mx_ + (1/2)*mx_*vx*vx
    let Ecm := Real.sqrt (mx_*mx_ + mN*mN + 2*mN*ExLab)
    let Ex := (Ecm/2)*(1 + (mx_*mx_) / (Ecm*Ecm) - (mN*mN) / (Ecm*Ecm))
    let E2 := (Ecm/2)*(1 + (mN*mN) / (Ecm*Ecm) - (mx_*mx_) / (Ecm*Ecm))
    let E3 := (Ecm/2)*(1 + (mNprime*mNprime) / (Ecm*Ecm) - (me_m*me_m) / (Ecm*Ecm))
    let Ee_ := (Ecm/2)*(1 + (me_m*me_m) / (Ecm*Ecm) - (mNprime*mNprime) / (Ecm*Ecm))
    let kx := Real.sqrt (Ex*Ex - mx_*mx_)
    let k2 := Real.sqrt (E2*E2 - mN*mN)
    let k3 := Real.sqrt (E3*E3 - mNprime*mNprime)
    let ke := Real.sqrt (Ee_*Ee_ - me_m*me_m)
    let kekx := Ee_*Ex - kx*ke*cos_theta
    let p2p3 := E2*E3 - k2*k3*cos_theta
    let p2ke := E2*Ee_ - k2*ke*cos_theta
    let p3kx := E3*Ex + kx*ke*cos_theta
    let p3ke := E3*Ee_ + ke*ke
    let p2kx := E2*Ex - k2*kx*cos_theta
    let gamma2CM := (Ex + mN)/(Ecm)
    let beta2CM := (kx)/(Ecm + mN)
    let E3lab := gamma2CM*(E3 + beta2CM*cos_theta*Real.sqrt (E3*E3 - mNprime*mNprime))
    let Eelab := gamma2CM*(Ee_ + beta2CM*cos_theta*Real.sqrt (Ee_*Ee_ - me_m*me_m))
    let AmpUV := p3ke*p2kx*(4*(val + lambd*lambd) + 8*lambd*val)
      + p3kx*p2ke*(4*(val + lambd*lambd) - 8*lambd*val)
      - val*4*mN*mNprime*kekx
    let dsigmadCosBareUV := vx*(1/LAMBDA*LAMBDA*LAMBDA*LAMBDA)
      * (1/(64*pi_loc*pi_loc*Ecm*Ecm)*(ke/kx))*AmpUV
    -- the locals Msquared, total_xsec, Z, A, k3, p2p3, E3lab, Eelab,
    -- beta_rel_cd and pb_cm are computed but unused, exactly as in the source
    (4*pi*dsigmadCosBareUV, beta_c_cm)

/-- One pass of the matrix-element loop of
`marley::NuclearReaction::summed_xs_helper` (NuclearReaction.cc lines
460-513): break at the first level whose energy exceeds `max_E_level`; for a
level with nonvanishing strength compute the partial cross section — due to
the hard-coded `if ( 1 )` of the source this is always `dm_total_xs(1.0,
mat_el, KEa, beta_c_cm, false)`, never the allowed-approximation `total_xs`
sitting in the dead else branch — multiply by the angular factor when a
differential cross section is requested, and accumulate the sum and the
per-level weight vector.  The `std::isnan` recovery branch of the source has
no real-valued counterpart (no NaN in this model) and is inert here.  `pdf`
stands for `MatrixElement::cos_theta_pdf`, whose definition
(MatrixElement.hh) is not under src/ and is treated as an external
parameter. -/
def summed_xs_loop (pdf : MatrixElement → ℝ → ℝ → ℝ) (r : NuclearReaction)
    (KEa cos_theta_c_cm : ℝ) (differential : Bool) (max_E_level : ℝ) :
    List MatrixElement → ℝ × List ℝ
  | [] => (0, [])
  | mat_el :: rest =>
    if mat_el.level_energy > max_E_level then (0, [])
    else if mat_el.strength ≠ 0 then
      let p := r.dm_total_xs 1.0 mat_el KEa 0 false
      let pxsec := if differential then p.1 * pdf mat_el cos_theta_c_cm p.2
        else p.1
      let rest_res := summed_xs_loop pdf r KEa cos_theta_c_cm differential
        max_E_level rest
      (pxsec + rest_res.1, pxsec :: rest_res.2)
    else summed_xs_loop pdf r KEa cos_theta_c_cm differential max_E_level rest

/-- Embedding of `marley::NuclearReaction::summed_xs_helper`
(NuclearReaction.cc lines 437-516): zero for a mismatched projectile PDG
code, zero for an out-of-range scattering cosine when a differential cross
section is requested, zero for nonpositive projectile kinetic energy;
otherwise the loop over the matrix elements.  The C++ out-vector
`level_xsecs` (cleared and then filled in element order) is the second
component of the result. -/
def NuclearReaction.summed_xs_helper (pdf : MatrixElement → ℝ → ℝ → ℝ)
    (r : NuclearReaction) (pdg_a : ℤ) (KEa cos_theta_c_cm : ℝ)
    (differential : Bool) : ℝ × List ℝ :=
  if pdg_a ≠ r.pdg_a then (0, [])
  else if differential = true ∧ |cos_theta_c_cm| > 1 then (0, [])
  else if KEa ≤ 0 then (0, [])
  else summed_xs_loop pdf r KEa cos_theta_c_cm differential
    (r.max_level_energy KEa) r.matrix_elements

/-- Embedding of the summed `marley::NuclearReaction::total_xs(pdg_a, KEa)`
(NuclearReaction.cc lines 407-410): `summed_xs_helper` with a dummy cosine
and `differential = false`. -/
def NuclearReaction.total_xs (pdf : MatrixElement → ℝ → ℝ → ℝ)
    (r : NuclearReaction) (pdg_a : ℤ) (KEa : ℝ) : ℝ :=
  (r.summed_xs_helper pdf pdg_a KEa 0 false).1

/-- Embedding of the summed `marley::NuclearReaction::diff_xs`
(NuclearReaction.cc lines 415-419). -/
def NuclearReaction.diff_xs (pdf : MatrixElement → ℝ → ℝ → ℝ)
    (r : NuclearReaction) (pdg_a : ℤ) (KEa cos_theta_c_cm : ℝ) : ℝ :=
  (r.summed_xs_helper pdf pdg_a KEa cos_theta_c_cm true).1

/-- The explicit failure modes of `marley::NuclearReaction::create_event`
(NuclearReaction.cc lines 212-275): the four thrown errors. -/
inductive CreateEventError
  | projectile_mismatch
  | below_threshold
  | no_accessible_levels
  | vanishing_cross_sections
  deriving DecidableEq

/-- The random sampling the Generator performs for `create_event`:
`sample_from_distribution` on a `std::discrete_distribution` over the level
weights, which returns an index below the size of the weight vector for any
nonempty weight vector. -/
structure GenOracle where
  sample_index : List ℝ → ℕ

/-- The part of the preliminary event determined by level sampling: the index
of the sampled matrix element and the excitation energy `E_level` of the
sampled level (NuclearReaction.cc lines 284-293). -/
structure EventSummary where
  me_index : ℕ
  E_level : ℝ

/-- Embedding of the validation and level-sampling part of
`marley::NuclearReaction::create_event` (NuclearReaction.cc lines 212-293):
throw for a mismatched projectile PDG code; throw below threshold; compute
the per-level weights through `summed_xs_helper` (dummy cosine, total cross
sections); throw when no kinematically accessible level produced a weight;
throw when the summed cross section is zero or negative; otherwise sample a
matrix-element index from the discrete distribution over the weights and
read the level energy off the sampled matrix element (`at(me_index)` is
modelled with `getD`, in range by the distribution's guarantee).  The
remaining steps of the source function (kinematics of the sampled level,
spin-parity assignment through the external StructureDatabase, angle
sampling and `make_event_object`) consume the sampled level and external
collaborators and are outside the properties stated here. -/
def NuclearReaction.create_event (pdf : MatrixElement → ℝ → ℝ → ℝ)
    (r : NuclearReaction) (gen : GenOracle) (pdg_a : ℤ) (KEa : ℝ) :
    Except CreateEventError EventSummary :=
  if pdg_a ≠ r.pdg_a then Except.error CreateEventError.projectile_mismatch
  else if KEa < r.KEa_threshold then Except.error CreateEventError.below_threshold
  else
    let res := r.summed_xs_helper pdf pdg_a KEa 0 false
    let sum_of_xsecs := res.1
    let level_weights := res.2
    if level_weights.isEmpty then
      Except.error CreateEventError.no_accessible_levels
    else if sum_of_xsecs ≤ 0 then
      Except.error CreateEventError.vanishing_cross_sections
    else
      let me_index := gen.sample_index level_weights
      let sampled_matrix_el := r.matrix_elements.getD me_index default
      Except.ok ⟨me_index, sampled_matrix_el.level_energy⟩

/-- Embedding of the state of a `marley::ElectronReaction` after
construction (NuclearReaction.cc lines 1018-1073): projectile PDG code,
atomic number of the target atom, the four rest masses, the coupling
constants fixed per projectile species, and the threshold. -/
structure ElectronReaction where
  pdg_a : ℤ
  Z_atom : ℤ
  ma : ℝ
  mb : ℝ
  mc : ℝ
  md : ℝ
  g1 : ℝ
  g2 : ℝ
  KEa_threshold : ℝ

/-- Embedding of `marley::ElectronReaction::total_xs` (NuclearReaction.cc
lines 1075-1104): zero for a mismatched projectile, zero below threshold,
otherwise the V-A elastic cross section scaled by the atomic number. -/
def ElectronReaction.total_xs (er : ElectronReaction) (pdg_a : ℤ)
    (KEa : ℝ) : ℝ :=
  if pdg_a ≠ er.pdg_a then 0
  else if KEa < er.KEa_threshold then 0
  else
    let s := (er.ma + er.mb)^2 + 2*er.mb*KEa
    let Ec_cm := (s + er.mc*er.mc - er.md*er.md) / (2 * Real.sqrt s)
    let me2_over_s := er.md*er.md / s
    let g2_squared_over_three := er.g2*er.g2 / 3
    let xs := (4 / pi) * (GF * Ec_cm)^2
      * (er.g1^2 + (g2_squared_over_three - er.g1*er.g2)*me2_over_s
        + g2_squared_over_three*(1 + me2_over_s^2))
    xs * (er.Z_atom : ℝ)

/-- Result record of `marley::Reaction::two_two_scatter` (src/Reaction.cc
lines 6-22): the four out-parameters s, Ec_cm, pc_cm, Ed_cm. -/
structure TwoTwoKinematics where
  s : ℝ
  Ec_cm : ℝ
  pc_cm : ℝ
  Ed_cm : ℝ

/-- Embedding of `marley::Reaction::two_two_scatter` (src/Reaction.cc lines
6-22).  `Ea` is the lab-frame total energy of the projectile; the member
variables ma2, mb2, mc2, md2 of that (older) Reaction class (header not
under src/) are the squared rest masses, so they appear here as squares of
the four mass parameters. -/
def two_two_scatter (ma mb mc md Ea : ℝ) : TwoTwoKinematics :=
  let s := ma^2 + mb^2 + 2 * mb * Ea
  let sqrt_s := Real.sqrt s
  let Ec_cm := (s + mc^2 - md^2) / (2 * sqrt_s)
  let pc_cm := real_sqrt (Ec_cm^2 - mc^2)
  let Ed_cm := max (sqrt_s - Ec_cm) md
  ⟨s, Ec_cm, pc_cm, Ed_cm⟩

/-- The lab-frame total projectile energy at which Mandelstam
s = ma^2 + mb^2 + 2 mb Ea reaches (mc+md)^2, the two-body threshold for the
kinematics of `two_two_scatter` (it equals the spec's kinetic-energy
threshold ((mc+md)^2 - (ma+mb)^2)/(2 mb) plus the projectile mass ma). -/
def Ea_threshold (ma mb mc md : ℝ) : ℝ :=
  ((mc + md)^2 - ma^2 - mb^2) / (2 * mb)

/-- Embedding of `TMarleyParity`: a nuclear parity, +1 or -1. -/
inductive TMarleyParity
  | plus
  | minus
  deriving DecidableEq

/-- Product of two parities (`TMarleyParity::operator*`). -/
def TMarleyParity.mul : TMarleyParity → TMarleyParity → TMarleyParity
  | TMarleyParity.plus, p => p
  | TMarleyParity.minus, TMarleyParity.plus => TMarleyParity.minus
  | TMarleyParity.minus, TMarleyParity.minus => TMarleyParity.plus

instance : Mul TMarleyParity := ⟨TMarleyParity.mul⟩

/-- Embedding of `TMarleyNuclearPhysics::TransitionType` for gamma rays. -/
inductive TransitionType
  | electric
  | magnetic
  deriving DecidableEq

/-- The two `std::runtime_error` failures of
`determine_gamma_transition_type`: the forbidden 0 -> 0 EM transition, and
an odd change of twice the angular momentum. -/
inductive GammaTransitionError
  | zero_to_zero
  | odd_spin_change
  deriving DecidableEq

/-- The parity (-1)^l: plus for even l, minus for odd l.  Used to state the
parity selection rule for electric transitions. -/
def parity_of_neg_one_pow (l : ℤ) : TMarleyParity :=
  if l % 2 = 0 then TMarleyParity.plus else TMarleyParity.minus

/-- Embedding of `TMarleyNuclearPhysics::determine_gamma_transition_type`
(src/TMarleyNuclearPhysics.cc lines 32-66): throw for twoJi = twoJf = 0;
throw for odd |twoJf - twoJi|; multipolarity l = 1 when the spin change is
zero and |twoJf - twoJi|/2 otherwise; electric when Pi*Pf equals -1 for odd
l / +1 for even l, magnetic otherwise.  The result pairs the transition type
with the multipolarity (the C++ out-parameter l). -/
def determine_gamma_transition_type (twoJi : ℤ) (Pi : TMarleyParity)
    (twoJf : ℤ) (Pf : TMarleyParity) :
    Except GammaTransitionError (TransitionType × ℤ) :=
  if twoJi = 0 ∧ twoJf = 0 then Except.error GammaTransitionError.zero_to_zero
  else
    let two_delta_J : ℤ := ((twoJf - twoJi).natAbs : ℤ)
    if two_delta_J % 2 ≠ 0 then Except.error GammaTransitionError.odd_spin_change
    else
      let Pi_times_Pf := Pi * Pf
      let l : ℤ := if two_delta_J = 0 then 1 else two_delta_J / 2
      let electric : TMarleyParity :=
        if l % 2 ≠ 0 then TMarleyParity.minus else TMarleyParity.plus
      if Pi_times_Pf = electric then Except.ok (TransitionType.electric, l)
      else Except.ok (TransitionType.magnetic, l)

/-- The multipolarity computed by `determine_gamma_transition_type`, written
as a standalone function of the two spins for use in statements: l = 1 for a
zero spin change and |twoJf - twoJi|/2 otherwise. -/
def dgtt_l (twoJi twoJf : ℤ) : ℤ :=
  if ((twoJf - twoJi).natAbs : ℤ) = 0 then 1 else ((twoJf - twoJi).natAbs : ℤ) / 2

/-- Embedding of the data members of `marley::Particle` (Particle header):
total energy, 3-momentum components, PDG code, rest mass and charge.  The
child-particle ownership pointers are not part of the kinematic accessors
embedded here. -/
structure Particle where
  total_energy : ℝ
  px : ℝ
  py : ℝ
  pz : ℝ
  particle_id : ℤ
  mass : ℝ
  charge : ℤ

/-- Embedding of `marley::Particle::get_kinetic_energy` (Particle header
lines 50-52): `std::max(total_energy - mass, 0.)`. -/
def Particle.get_kinetic_energy (p : Particle) : ℝ :=
  max (p.total_energy - p.mass) 0

/-- Concrete mass table for evaluating the constructor: every particle mass
1, except PDG code 1 which gets mass 0. -/
def mtC5 : MassTable :=
  ⟨fun p => if p = 1 then 0 else 1, fun _ => 1⟩

/-- Concrete mass table with every mass equal to 1. -/
def mt1 : MassTable :=
  ⟨fun _ => 1, fun _ => 1⟩

/-- Concrete angular-distribution stand-in for evaluation. -/
def pdf0 : MatrixElement → ℝ → ℝ → ℝ := fun _ _ _ => 0

/-- Concrete generator oracle that always samples index 0. -/
def gen0 : GenOracle := ⟨fun _ => 0⟩

/-- Concrete matrix element: ground-state level, unit strength, Fermi type. -/
def me0 : MatrixElement := ⟨0, 1, METype.FERMI⟩

/-- Concrete dark-matter NuclearReaction with no matrix elements, threshold
0 and unit target and residue masses, for evaluating the error paths. -/
def rEmpty : NuclearReaction :=
  { process_type := ProcessType.DM
    pdg_a := 1, pdg_b := 2, pdg_c := 3, pdg_d := 4, q_d := 0
    Zi := 0, Ai := 0, Zf := 0, Af := 0
    ma := 0, mb := 1, mc := 0, md_gs := 1
    KEa_threshold := 0
    matrix_elements := []
    coulomb_mode := CoulombMode.NO_CORRECTION }

/-- Concrete dark-matter NuclearReaction with a single ground-state Fermi
matrix element of unit strength. -/
def rOne : NuclearReaction :=
  { process_type := ProcessType.DM
    pdg_a := 1, pdg_b := 2, pdg_c := 3, pdg_d := 4, q_d := 0
    Zi := 0, Ai := 0, Zf := 0, Af := 0
    ma := 0, mb := 1, mc := 0, md_gs := 1
    KEa_threshold := 0
    matrix_elements := [me0]
    coulomb_mode := CoulombMode.NO_CORRECTION }

/-- Concrete non-DM NuclearReaction built through the embedded constructor
with every mass equal to 1, for evaluating the threshold formula. -/
def rC5 : NuclearReaction :=
  NuclearReaction.make mt1 ProcessType.NeutrinoCC 1 2 3 4 0 []
    CoulombMode.NO_CORRECTION

/-- Concrete ElectronReaction: electron-neutrino projectile (PDG 12) on an
argon atom, with the nu_e coupling constants. -/
def er0 : ElectronReaction :=
  { pdg_a := 12, Z_atom := 18
    ma := 0, mb := 0.511, mc := 0, md := 0.511
    g1 := ONE_HALF + sin2thetaw, g2 := sin2thetaw
    KEa_threshold := 0 }

/-! Theorems.  Helper lemmas come first, then one theorem per claim (with a
closed witness instance for each theorem that carries hypotheses). -/

/-- Parity multiplication is commutative. -/
theorem TMarleyParity.mul_comm (a b : TMarleyParity) : a * b = b * a := by
  cases a <;> cases b <;> rfl

/-- The parity (-1)^l written the way the source builds `electric_parity`:
minus for odd l, plus for even l. -/
theorem parity_of_neg_one_pow_eq (l : ℤ) :
    parity_of_neg_one_pow l
      = if l % 2 ≠ 0 then TMarleyParity.minus else TMarleyParity.plus := by
  unfold parity_of_neg_one_pow
  by_cases h : l % 2 = 0
  · rw [if_pos h, if_neg (not_not_intro h)]
  · rw [if_neg h, if_pos h]

/-- C10 (implicit, from the Particle header): `get_kinetic_energy` returns
`max(total_energy - mass, 0)`, so the reported kinetic energy is never
negative, however the fields were set. -/
theorem claim_C10_kinetic_energy_clamped (p : Particle) :
    p.get_kinetic_energy = max (p.total_energy - p.mass) 0 ∧
    0 ≤ p.get_kinetic_energy :=
  ⟨rfl, le_max_right _ _⟩

/-- C4: for both reaction variants, `total_xs` called with a projectile PDG
code different from the configured one returns exactly zero (the embedded
functions are total, so no exception is thrown on this path: the mismatch
test is the first statement of both source functions). -/
theorem claim_C4_total_xs_mismatch_zero (pdf : MatrixElement → ℝ → ℝ → ℝ)
    (nr : NuclearReaction) (er : ElectronReaction) (pdg pdg2 : ℤ)
    (KEa KEa2 : ℝ) :
    (pdg ≠ nr.pdg_a → nr.total_xs pdf pdg KEa = 0) ∧
    (pdg2 ≠ er.pdg_a → er.total_xs pdg2 KEa2 = 0) := by
  constructor
  · intro h
    unfold NuclearReaction.total_xs NuclearReaction.summed_xs_helper
    rw [if_pos h]
  · intro h
    unfold ElectronReaction.total_xs
    rw [if_pos h]

/-- Witness for C4 at a concrete mismatched projectile code. -/
theorem claim_C4_witness :
    NuclearReaction.total_xs pdf0 rEmpty 2 5 = 0 ∧
    ElectronReaction.total_xs er0 2 5 = 0 :=
  ⟨(claim_C4_total_xs_mismatch_zero pdf0 rEmpty er0 2 2 5 5).1 (by decide),
   (claim_C4_total_xs_mismatch_zero pdf0 rEmpty er0 2 2 5 5).2 (by decide)⟩

/-- C6: `two_two_scatter` computes s = ma^2 + mb^2 + 2 mb Ea,
Ec_cm = (s + mc^2 - md^2)/(2 sqrt s), pc_cm = realsqrt(Ec_cm^2 - mc^2) with a
negative radicand clamped to zero, and Ed_cm = max(sqrt s - Ec_cm, md); hence
Ed_cm is at least md always, and Ec_cm^2 - pc_cm^2 = mc^2 whenever the
radicand is nonnegative. -/
theorem claim_C6_two_two_scatter (ma mb mc md Ea : ℝ)
    (h : Ea_threshold ma mb mc md ≤ Ea) :
    (two_two_scatter ma mb mc md Ea).s = ma^2 + mb^2 + 2*mb*Ea ∧
    (two_two_scatter ma mb mc md Ea).Ec_cm
      = ((two_two_scatter ma mb mc md Ea).s + mc^2 - md^2)
        / (2 * Real.sqrt ((two_two_scatter ma mb mc md Ea).s)) ∧
    (two_two_scatter ma mb mc md Ea).Ed_cm
      = max (Real.sqrt ((two_two_scatter ma mb mc md Ea).s)
          - (two_two_scatter ma mb mc md Ea).Ec_cm) md ∧
    md ≤ (two_two_scatter ma mb mc md Ea).Ed_cm ∧
    ((two_two_scatter ma mb mc md Ea).Ec_cm^2 - mc^2 < 0 →
      (two_two_scatter ma mb mc md Ea).pc_cm = 0) ∧
    (0 ≤ (two_two_scatter ma mb mc md Ea).Ec_cm^2 - mc^2 →
      (two_two_scatter ma mb mc md Ea).Ec_cm^2
        - (two_two_scatter ma mb mc md Ea).pc_cm^2 = mc^2) := by
  refine ⟨rfl, rfl, rfl, le_max_right _ _, ?_, ?_⟩
  · intro hneg
    show real_sqrt ((two_two_scatter ma mb mc md Ea).Ec_cm^2 - mc^2) = 0
    unfold real_sqrt
    rw [if_pos hneg]
  · intro hpos
    show (two_two_scatter ma mb mc md Ea).Ec_cm^2
        - real_sqrt ((two_two_scatter ma mb mc md Ea).Ec_cm^2 - mc^2)^2 = mc^2
    unfold real_sqrt
    rw [if_neg (not_lt.2 hpos), Real.sq_sqrt hpos]
    ring

/-- Witness for C6 at the concrete kinematics ma = 0, mb = 1, mc = 0, md = 1,
Ea = 2 (above the s-threshold). -/
theorem claim_C6_witness :
    (two_two_scatter 0 1 0 1 2).s = 0^2 + 1^2 + 2*1*2 ∧
    (two_two_scatter 0 1 0 1 2).Ec_cm
      = ((two_two_scatter 0 1 0 1 2).s + 0^2 - 1^2)
        / (2 * Real.sqrt ((two_two_scatter 0 1 0 1 2).s)) ∧
    (two_two_scatter 0 1 0 1 2).Ed_cm
      = max (Real.sqrt ((two_two_scatter 0 1 0 1 2).s)
          - (two_two_scatter 0 1 0 1 2).Ec_cm) 1 ∧
    (1:ℝ) ≤ (two_two_scatter 0 1 0 1 2).Ed_cm ∧
    ((two_two_scatter 0 1 0 1 2).Ec_cm^2 - 0^2 < 0 →
      (two_two_scatter 0 1 0 1 2).pc_cm = 0) ∧
    (0 ≤ (two_two_scatter 0 1 0 1 2).Ec_cm^2 - 0^2 →
      (two_two_scatter 0 1 0 1 2).Ec_cm^2
        - (two_two_scatter 0 1 0 1 2).pc_cm^2 = 0^2) :=
  claim_C6_two_two_scatter 0 1 0 1 2 (by norm_num [Ea_threshold])

/-- C7: for a NuclearReaction whose process type is DM, the per-level
`total_xs` overload, called with a matrix element of nonzero strength that
passes the level-energy check, reaches the end of the function body without
executing any return statement (the branch guarded by
`process_type_ != ProcessType::DM` provides no return value for the DM
case). -/
theorem claim_C7_dm_branch_missing_return (r : NuclearReaction)
    (me : MatrixElement) (KEa beta0 : ℝ) (chk : Bool)
    (hpt : r.process_type = ProcessType.DM) (hs : me.strength ≠ 0)
    (hlev : ¬ (chk = true ∧ me.level_energy > r.max_level_energy KEa)) :
    (r.total_xs_level me KEa beta0 chk).1 = LevelXsResult.missing_return := by
  simp only [NuclearReaction.total_xs_level]
  rw [if_neg hs, if_neg hlev, if_neg (not_not_intro hpt)]

/-- Witness for C7 at a concrete DM reaction with a unit-strength matrix
element and the level-energy check disabled. -/
theorem claim_C7_witness :
    (rOne.total_xs_level me0 5 0 false).1 = LevelXsResult.missing_return :=
  claim_C7_dm_branch_missing_return rOne me0 5 0 false rfl
    (by norm_num [me0]) (by simp)

/-- C5 counterexample: a NuclearReaction built by the embedded constructor
with process type DM and masses ma = 0, mb = 1, mc = 1, md_gs = 1 has
threshold md_gs + mc - mb = 1, not the claimed
((mc + md_gs)^2 - (ma + mb)^2)/(2 mb) = 3/2. -/
theorem claim_C5_counterexample :
    ¬ ((NuclearReaction.make mtC5 ProcessType.DM 1 2 3 4 0 []
        CoulombMode.NO_CORRECTION).threshold_kinetic_energy
      = (((NuclearReaction.make mtC5 ProcessType.DM 1 2 3 4 0 []
          CoulombMode.NO_CORRECTION).mc
        + (NuclearReaction.make mtC5 ProcessType.DM 1 2 3 4 0 []
          CoulombMode.NO_CORRECTION).md_gs)^2
        - ((NuclearReaction.make mtC5 ProcessType.DM 1 2 3 4 0 []
          CoulombMode.NO_CORRECTION).ma
        + (NuclearReaction.make mtC5 ProcessType.DM 1 2 3 4 0 []
          CoulombMode.NO_CORRECTION).mb)^2)
        / (2*(NuclearReaction.make mtC5 ProcessType.DM 1 2 3 4 0 []
          CoulombMode.NO_CORRECTION).mb)) := by
  norm_num [NuclearReaction.make, NuclearReaction.threshold_kinetic_energy,
    mtC5]

/-- C5 as amended: for a NuclearReaction built by the constructor with a
process type other than DM, `threshold_kinetic_energy` returns
((mc + md_gs)^2 - (ma + mb)^2)/(2 mb); consequently (for a positive target
mass and a nonnegative mc + md_gs) `max_level_energy` at exactly this
threshold equals zero, so a matrix element is kinematically accessible at
threshold exactly when its level energy is at most 0. -/
theorem claim_C5_amended_threshold (mt : MassTable) (pt : ProcessType)
    (pdg_a pdg_b pdg_c pdg_d q_d : ℤ) (mat_els : List MatrixElement)
    (cmode : CoulombMode) (r : NuclearReaction)
    (hr : r = NuclearReaction.make mt pt pdg_a pdg_b pdg_c pdg_d q_d mat_els
      cmode)
    (hpt : pt ≠ ProcessType.DM) (hmb : 0 < r.mb)
    (hsum : 0 ≤ r.mc + r.md_gs) :
    r.threshold_kinetic_energy
        = ((r.mc + r.md_gs)^2 - (r.ma + r.mb)^2) / (2*r.mb) ∧
    r.max_level_energy r.threshold_kinetic_energy = 0 ∧
    ∀ me : MatrixElement,
      (me.level_energy ≤ r.max_level_energy r.threshold_kinetic_energy
        ↔ me.level_energy ≤ 0) := by
  have hthr : r.threshold_kinetic_energy
      = ((r.mc + r.md_gs)^2 - (r.ma + r.mb)^2) / (2*r.mb) := by
    subst hr
    simp only [NuclearReaction.threshold_kinetic_energy, NuclearReaction.make]
    rw [if_neg hpt]
  have hmb0 : r.mb ≠ 0 := ne_of_gt hmb
  have hmax : r.max_level_energy r.threshold_kinetic_energy = 0 := by
    rw [hthr]
    unfold NuclearReaction.max_level_energy
    have harg : (r.ma + r.mb)^2
        + 2*r.mb*(((r.mc + r.md_gs)^2 - (r.ma + r.mb)^2) / (2*r.mb))
        = (r.mc + r.md_gs)^2 := by
      field_simp
    rw [harg, Real.sqrt_sq hsum]
    ring
  exact ⟨hthr, hmax, fun me => by rw [hmax]⟩

/-- Witness for C5 at the concrete constructed reaction with unit masses and
a charged-current process type. -/
theorem claim_C5_witness :
    rC5.threshold_kinetic_energy
        = ((rC5.mc + rC5.md_gs)^2 - (rC5.ma + rC5.mb)^2) / (2*rC5.mb) ∧
    rC5.max_level_energy rC5.threshold_kinetic_energy = 0 ∧
    ∀ me : MatrixElement,
      (me.level_energy ≤ rC5.max_level_energy rC5.threshold_kinetic_energy
        ↔ me.level_energy ≤ 0) :=
  claim_C5_amended_threshold mt1 ProcessType.NeutrinoCC 1 2 3 4 0 []
    CoulombMode.NO_CORRECTION rC5 rfl (by decide)
    (by norm_num [rC5, NuclearReaction.make, mt1])
    (by norm_num [rC5, NuclearReaction.make, mt1])

/-- The forbidden 0 -> 0 case of `determine_gamma_transition_type`. -/
theorem dgtt_zero_case (twoJi : ℤ) (Pi : TMarleyParity) (twoJf : ℤ)
    (Pf : TMarleyParity) (h0 : twoJi = 0 ∧ twoJf = 0) :
    determine_gamma_transition_type twoJi Pi twoJf Pf
      = Except.error GammaTransitionError.zero_to_zero := by
  simp only [determine_gamma_transition_type]
  rw [if_pos h0]

/-- The odd spin-change case of `determine_gamma_transition_type`. -/
theorem dgtt_odd_case (twoJi : ℤ) (Pi : TMarleyParity) (twoJf : ℤ)
    (Pf : TMarleyParity) (h0 : ¬ (twoJi = 0 ∧ twoJf = 0))
    (hodd : ((twoJf - twoJi).natAbs : ℤ) % 2 ≠ 0) :
    determine_gamma_transition_type twoJi Pi twoJf Pf
      = Except.error GammaTransitionError.odd_spin_change := by
  simp only [determine_gamma_transition_type]
  rw [if_neg h0, if_pos hodd]

/-- The successful case of `determine_gamma_transition_type`: multipolarity
`dgtt_l`, electric when Pi*Pf is (-1)^l, magnetic otherwise. -/
theorem dgtt_even_case (twoJi : ℤ) (Pi : TMarleyParity) (twoJf : ℤ)
    (Pf : TMarleyParity) (h0 : ¬ (twoJi = 0 ∧ twoJf = 0))
    (heven : ¬ ((twoJf - twoJi).natAbs : ℤ) % 2 ≠ 0) :
    determine_gamma_transition_type twoJi Pi twoJf Pf
      = if Pi * Pf = parity_of_neg_one_pow (dgtt_l twoJi twoJf)
        then Except.ok (TransitionType.electric, dgtt_l twoJi twoJf)
        else Except.ok (TransitionType.magnetic, dgtt_l twoJi twoJf) := by
  simp only [determine_gamma_transition_type, dgtt_l, parity_of_neg_one_pow_eq]
  rw [if_neg h0, if_neg heven]

/-- The multipolarity `dgtt_l` written with the spec's spin-change test:
1 when twoJi = twoJf, |twoJf - twoJi|/2 otherwise. -/
theorem dgtt_l_eq (twoJi twoJf : ℤ) :
    dgtt_l twoJi twoJf
      = if twoJi = twoJf then 1 else ((twoJf - twoJi).natAbs : ℤ) / 2 := by
  unfold dgtt_l
  by_cases h : twoJi = twoJf
  · rw [if_pos h, if_pos (by omega : ((twoJf - twoJi).natAbs : ℤ) = 0)]
  · rw [if_neg h, if_neg (by omega : ¬ ((twoJf - twoJi).natAbs : ℤ) = 0)]

/-- C8: `determine_gamma_transition_type` fails exactly on 0 -> 0 or odd
|twoJf - twoJi|; otherwise it returns multipolarity 1 for zero spin change
and |twoJf - twoJi|/2 otherwise, and classifies the transition electric if
and only if Pi*Pf equals (-1)^l. -/
theorem claim_C8_gamma_transition_classification (twoJi : ℤ)
    (Pi : TMarleyParity) (twoJf : ℤ) (Pf : TMarleyParity) :
    ((∃ e, determine_gamma_transition_type twoJi Pi twoJf Pf = Except.error e)
      ↔ (twoJi = 0 ∧ twoJf = 0) ∨ ((twoJf - twoJi).natAbs : ℤ) % 2 = 1) ∧
    (∀ (t : TransitionType) (l : ℤ),
      determine_gamma_transition_type twoJi Pi twoJf Pf = Except.ok (t, l) →
      (l = if twoJi = twoJf then 1 else ((twoJf - twoJi).natAbs : ℤ) / 2) ∧
      (t = TransitionType.electric ↔ Pi * Pf = parity_of_neg_one_pow l)) := by
  by_cases h0 : twoJi = 0 ∧ twoJf = 0
  · rw [dgtt_zero_case twoJi Pi twoJf Pf h0]
    refine ⟨⟨fun _ => Or.inl h0, fun _ => ⟨_, rfl⟩⟩, ?_⟩
    intro t l h
    exact Except.noConfusion h
  · by_cases hodd : ((twoJf - twoJi).natAbs : ℤ) % 2 ≠ 0
    · rw [dgtt_odd_case twoJi Pi twoJf Pf h0 hodd]
      have h1 : ((twoJf - twoJi).natAbs : ℤ) % 2 = 1 := by omega
      refine ⟨⟨fun _ => Or.inr h1, fun _ => ⟨_, rfl⟩⟩, ?_⟩
      intro t l h
      exact Except.noConfusion h
    · rw [dgtt_even_case twoJi Pi twoJf Pf h0 hodd]
      have h2 : ¬ (((twoJf - twoJi).natAbs : ℤ) % 2 = 1) := by omega
      constructor
      · constructor
        · rintro ⟨e, he⟩
          by_cases hP : Pi * Pf = parity_of_neg_one_pow (dgtt_l twoJi twoJf)
          · rw [if_pos hP] at he
            exact Except.noConfusion he
          · rw [if_neg hP] at he
            exact Except.noConfusion he
        · rintro (hc | hc)
          · exact absurd hc h0
          · exact absurd hc h2
      · intro t l h
        by_cases hP : Pi * Pf = parity_of_neg_one_pow (dgtt_l twoJi twoJf)
        · rw [if_pos hP] at h
          injection h with hpair
          injection hpair with ht hl
          subst ht
          subst hl
          exact ⟨dgtt_l_eq twoJi twoJf, ⟨fun _ => hP, fun _ => rfl⟩⟩
        · rw [if_neg hP] at h
          injection h with hpair
          injection hpair with ht hl
          subst ht
          subst hl
          exact ⟨dgtt_l_eq twoJi twoJf,
            ⟨fun hc => TransitionType.noConfusion hc, fun hc => absurd hc hP⟩⟩

/-- Witness for C8 at the concrete transition 2Ji = 2, Pi = +, 2Jf = 0,
Pf = -: an allowed E1 transition. -/
theorem claim_C8_witness :
    ((1:ℤ) = if (2:ℤ) = (0:ℤ) then 1 else (((0:ℤ) - (2:ℤ)).natAbs : ℤ) / 2) ∧
    (TransitionType.electric = TransitionType.electric
      ↔ TMarleyParity.plus * TMarleyParity.minus = parity_of_neg_one_pow 1) :=
  (claim_C8_gamma_transition_classification 2 TMarleyParity.plus 0
    TMarleyParity.minus).2 TransitionType.electric 1 rfl

/-- C9: `determine_gamma_transition_type` is symmetric under the simultaneous
exchange (twoJi, Pi) <-> (twoJf, Pf): same result record (success with the
same type and multipolarity, or the same failure) on the swapped input. -/
theorem claim_C9_gamma_transition_symmetric (twoJi : ℤ) (Pi : TMarleyParity)
    (twoJf : ℤ) (Pf : TMarleyParity) :
    determine_gamma_transition_type twoJi Pi twoJf Pf
      = determine_gamma_transition_type twoJf Pf twoJi Pi := by
  have habs : ((twoJi - twoJf).natAbs : ℤ) = ((twoJf - twoJi).natAbs : ℤ) := by
    rw [← neg_sub twoJf twoJi, Int.natAbs_neg]
  have hl : dgtt_l twoJf twoJi = dgtt_l twoJi twoJf := by
    unfold dgtt_l
    rw [habs]
  by_cases h0 : twoJi = 0 ∧ twoJf = 0
  · rw [dgtt_zero_case twoJi Pi twoJf Pf h0,
      dgtt_zero_case twoJf Pf twoJi Pi ⟨h0.2, h0.1⟩]
  · by_cases hodd : ((twoJf - twoJi).natAbs : ℤ) % 2 ≠ 0
    · rw [dgtt_odd_case twoJi Pi twoJf Pf h0 hodd,
        dgtt_odd_case twoJf Pf twoJi Pi (fun hc => h0 ⟨hc.2, hc.1⟩)
          (by rw [habs]; exact hodd)]
    · rw [dgtt_even_case twoJi Pi twoJf Pf h0 hodd,
        dgtt_even_case twoJf Pf twoJi Pi (fun hc => h0 ⟨hc.2, hc.1⟩)
          (by rw [habs]; exact hodd),
        hl, TMarleyParity.mul_comm Pf Pi]

/-- The matrix-element loop only reads the reaction through
`dm_total_xs`: two reactions whose `dm_total_xs` agree produce the same sum
and the same weight vector. -/
theorem summed_xs_loop_congr (pdf : MatrixElement → ℝ → ℝ → ℝ)
    (r r2 : NuclearReaction) (KEa cth : ℝ) (diff : Bool) (maxE : ℝ)
    (hdm : ∀ me : MatrixElement,
      r2.dm_total_xs 1.0 me KEa 0 false = r.dm_total_xs 1.0 me KEa 0 false) :
    ∀ l : List MatrixElement,
      summed_xs_loop pdf r2 KEa cth diff maxE l
        = summed_xs_loop pdf r KEa cth diff maxE l := by
  intro l
  induction l with
  | nil => rfl
  | cons mat_el rest ih =>
    simp only [summed_xs_loop, hdm, ih]

/-- The matrix-element loop breaks at the first level whose energy exceeds
the bound: whatever follows that element contributes nothing to the sum or
the weight vector. -/
theorem summed_xs_loop_stops (pdf : MatrixElement → ℝ → ℝ → ℝ)
    (r : NuclearReaction) (KEa cth : ℝ) (diff : Bool) (maxE : ℝ)
    (bad : MatrixElement) (hbad : bad.level_energy > maxE) :
    ∀ (pre suf suf2 : List MatrixElement),
      summed_xs_loop pdf r KEa cth diff maxE (pre ++ bad :: suf)
        = summed_xs_loop pdf r KEa cth diff maxE (pre ++ bad :: suf2) := by
  intro pre
  induction pre with
  | nil =>
    intro suf suf2
    simp only [List.nil_append, summed_xs_loop, if_pos hbad]
  | cons mat_el pre ih =>
    intro suf suf2
    simp only [List.cons_append, summed_xs_loop]
    by_cases hbr : mat_el.level_energy > maxE
    · simp only [if_pos hbr]
    · simp only [if_neg hbr]
      by_cases hs : mat_el.strength ≠ 0
      · simp only [if_pos hs, List.append_eq, ih suf suf2]
      · simp only [if_neg hs, List.append_eq]
        exact ih suf suf2

/-- Every index into the weight vector produced by the matrix-element loop
points (in the original list) at an element whose level energy is within the
bound: the break guarantees the weights all come from the accessible
front of the list, and skipping zero-strength elements only ever shifts
weight indices toward the front. -/
theorem summed_xs_loop_index_le (pdf : MatrixElement → ℝ → ℝ → ℝ)
    (r : NuclearReaction) (KEa cth : ℝ) (diff : Bool) (maxE : ℝ) :
    ∀ (l : List MatrixElement) (i : ℕ),
      i < (summed_xs_loop pdf r KEa cth diff maxE l).2.length →
      (l.getD i default).level_energy ≤ maxE := by
  intro l
  induction l with
  | nil =>
    intro i h
    simp [summed_xs_loop] at h
  | cons mat_el rest ih =>
    intro i h
    simp only [summed_xs_loop] at h
    by_cases hbr : mat_el.level_energy > maxE
    · rw [if_pos hbr] at h
      simp at h
    · rw [if_neg hbr] at h
      by_cases hs : mat_el.strength ≠ 0
      · rw [if_pos hs] at h
        cases i with
        | zero =>
          simpa using le_of_not_lt hbr
        | succ j =>
          have hj : j < (summed_xs_loop pdf r KEa cth diff maxE rest).2.length := by
            simpa using h
          simpa using ih j hj
      · rw [if_neg hs] at h
        cases i with
        | zero =>
          simpa using le_of_not_lt hbr
        | succ j =>
          simpa using ih j (Nat.lt_of_succ_lt h)

/-- The guards of `summed_xs_helper` in the passing case: with a matching
projectile, an in-range (or unused) cosine and positive kinetic energy, the
helper is exactly the matrix-element loop bounded by `max_level_energy`. -/
theorem summed_xs_helper_passes (pdf : MatrixElement → ℝ → ℝ → ℝ)
    (r : NuclearReaction) (pdg : ℤ) (KEa cth : ℝ) (diff : Bool)
    (h1 : pdg = r.pdg_a) (h2 : ¬ (diff = true ∧ |cth| > 1))
    (h3 : ¬ KEa ≤ 0) :
    r.summed_xs_helper pdf pdg KEa cth diff
      = summed_xs_loop pdf r KEa cth diff (r.max_level_energy KEa)
          r.matrix_elements := by
  unfold NuclearReaction.summed_xs_helper
  rw [if_neg (fun hn => hn h1), if_neg h2, if_neg h3]

/-- Nonpositive projectile kinetic energy makes `summed_xs_helper` return a
zero cross section and an empty weight vector. -/
theorem summed_xs_helper_nonpos (pdf : MatrixElement → ℝ → ℝ → ℝ)
    (r : NuclearReaction) (pdg : ℤ) (KEa cth : ℝ) (diff : Bool)
    (hk : KEa ≤ 0) :
    r.summed_xs_helper pdf pdg KEa cth diff = (0, []) := by
  unfold NuclearReaction.summed_xs_helper
  by_cases h1 : pdg ≠ r.pdg_a
  · rw [if_pos h1]
  · rw [if_neg h1]
    by_cases h2 : diff = true ∧ |cth| > 1
    · rw [if_pos h2]
    · rw [if_neg h2, if_pos hk]

/-- C1 (the code): `summed_xs_helper` produces the same total cross section
and the same per-level sampling weights for any two reactions that agree on
the projectile PDG code, the four masses, Zi and the matrix elements —
in particular for reactions that differ only in their process type.  The
hard-coded `if ( 1 )` always routes the per-level weight through
`dm_total_xs`, so no charged-current factor (Vud^2, Coulomb correction) and
no neutral-current factor (Qw^2/4) ever enters a weight, contradicting the
claimed allowed-approximation formula. -/
theorem claim_C1_summed_xs_ignores_process_type
    (pdf : MatrixElement → ℝ → ℝ → ℝ) (r r2 : NuclearReaction) (pdg : ℤ)
    (KEa cth : ℝ) (diff : Bool)
    (hpdg : r2.pdg_a = r.pdg_a) (hma : r2.ma = r.ma) (hmb : r2.mb = r.mb)
    (hmc : r2.mc = r.mc) (hmd : r2.md_gs = r.md_gs) (hZi : r2.Zi = r.Zi)
    (hel : r2.matrix_elements = r.matrix_elements) :
    NuclearReaction.summed_xs_helper pdf r2 pdg KEa cth diff
      = NuclearReaction.summed_xs_helper pdf r pdg KEa cth diff := by
  have hmax : r2.max_level_energy KEa = r.max_level_energy KEa := by
    unfold NuclearReaction.max_level_energy
    rw [hma, hmb, hmc, hmd]
  have hdm : ∀ me : MatrixElement,
      r2.dm_total_xs 1.0 me KEa 0 false = r.dm_total_xs 1.0 me KEa 0 false := by
    intro me
    simp only [NuclearReaction.dm_total_xs, NuclearReaction.max_level_energy]
    rw [hma, hmb, hmc, hmd, hZi]
  unfold NuclearReaction.summed_xs_helper
  rw [hpdg, hel, hmax,
    summed_xs_loop_congr pdf r r2 KEa cth diff (r.max_level_energy KEa) hdm
      r.matrix_elements]

/-- Witness for C1: changing the process type of a concrete dark-matter
reaction to charged-current leaves every `summed_xs_helper` output
unchanged. -/
theorem claim_C1_witness :
    NuclearReaction.summed_xs_helper pdf0
        {rOne with process_type := ProcessType.NeutrinoCC} 1 4 0 false
      = NuclearReaction.summed_xs_helper pdf0 rOne 1 4 0 false :=
  claim_C1_summed_xs_ignores_process_type pdf0 rOne
    {rOne with process_type := ProcessType.NeutrinoCC} 1 4 0 false
    rfl rfl rfl rfl rfl rfl rfl

/-- C3: `create_event` throws an explicit error — never returning an Event —
for a mismatched projectile PDG code, for a projectile kinetic energy below
threshold, when no matrix element is kinematically accessible, and when the
summed accessible-level cross section is zero or negative. -/
theorem claim_C3_create_event_failures (pdf : MatrixElement → ℝ → ℝ → ℝ)
    (r : NuclearReaction) (gen : GenOracle) (pdg : ℤ) (KEa : ℝ) :
    (pdg ≠ r.pdg_a →
      r.create_event pdf gen pdg KEa
        = Except.error CreateEventError.projectile_mismatch) ∧
    (pdg = r.pdg_a → KEa < r.KEa_threshold →
      r.create_event pdf gen pdg KEa
        = Except.error CreateEventError.below_threshold) ∧
    (pdg = r.pdg_a → ¬ KEa < r.KEa_threshold →
      (∀ me ∈ r.matrix_elements, r.max_level_energy KEa < me.level_energy) →
      r.create_event pdf gen pdg KEa
        = Except.error CreateEventError.no_accessible_levels) ∧
    (pdg = r.pdg_a → ¬ KEa < r.KEa_threshold →
      (r.summed_xs_helper pdf pdg KEa 0 false).1 ≤ 0 →
      ∃ e, r.create_event pdf gen pdg KEa = Except.error e) := by
  refine ⟨?_, ?_, ?_, ?_⟩
  · intro h
    simp only [NuclearReaction.create_event]
    rw [if_pos h]
  · intro h1 h2
    simp only [NuclearReaction.create_event]
    rw [if_neg (fun hn => hn h1), if_pos h2]
  · intro h1 h2 hall
    have hw : (r.summed_xs_helper pdf pdg KEa 0 false).2 = [] := by
      by_cases hk : KEa ≤ 0
      · rw [summed_xs_helper_nonpos pdf r pdg KEa 0 false hk]
      · rw [summed_xs_helper_passes pdf r pdg KEa 0 false h1 (by simp) hk]
        cases helts : r.matrix_elements with
        | nil => rfl
        | cons mat_el rest =>
          simp only [summed_xs_loop]
          rw [if_pos (hall mat_el (by rw [helts]; exact List.mem_cons_self _ _))]
    simp only [NuclearReaction.create_event]
    rw [if_neg (fun hn => hn h1), if_neg h2]
    simp [hw]
  · intro h1 h2 hsum
    simp only [NuclearReaction.create_event]
    rw [if_neg (fun hn => hn h1), if_neg h2]
    by_cases hw : (r.summed_xs_helper pdf pdg KEa 0 false).2.isEmpty = true
    · exact ⟨_, by rw [if_pos hw]⟩
    · exact ⟨_, by rw [if_neg hw, if_pos hsum]⟩

/-- Witness for C3: the three distinguishable errors and the vanishing-sum
failure at a concrete reaction with no matrix elements. -/
theorem claim_C3_witness :
    rEmpty.create_event pdf0 gen0 2 5
        = Except.error CreateEventError.projectile_mismatch ∧
    rEmpty.create_event pdf0 gen0 1 (-1)
        = Except.error CreateEventError.below_threshold ∧
    rEmpty.create_event pdf0 gen0 1 5
        = Except.error CreateEventError.no_accessible_levels ∧
    ∃ e, rEmpty.create_event pdf0 gen0 1 5 = Except.error e :=
  ⟨(claim_C3_create_event_failures pdf0 rEmpty gen0 2 5).1 (by decide),
   (claim_C3_create_event_failures pdf0 rEmpty gen0 1 (-1)).2.1 (by decide)
     (by norm_num [rEmpty]),
   (claim_C3_create_event_failures pdf0 rEmpty gen0 1 5).2.2.1 (by decide)
     (by norm_num [rEmpty]) (by simp [rEmpty]),
   (claim_C3_create_event_failures pdf0 rEmpty gen0 1 5).2.2.2 (by decide)
     (by norm_num [rEmpty])
     (by norm_num [NuclearReaction.summed_xs_helper, summed_xs_loop, rEmpty])⟩

/-- C2: with the matrix elements sorted ascending by level energy and a
generator whose discrete distribution returns an in-range index, the loop
inside `summed_xs_helper` stops (rather than skips) at the first element
whose level energy exceeds `max_level_energy KEa`, so nothing after that
element influences the sampling weights; and any event `create_event`
returns samples a level whose energy is at most `max_level_energy KEa`. -/
theorem claim_C2_sampled_level_bounded (pdf : MatrixElement → ℝ → ℝ → ℝ)
    (r : NuclearReaction) (gen : GenOracle) (KEa : ℝ)
    (hsort : List.Pairwise
      (fun m1 m2 : MatrixElement => m1.level_energy ≤ m2.level_energy)
      r.matrix_elements)
    (hgen : ∀ ws : List ℝ, ws ≠ [] → gen.sample_index ws < ws.length) :
    (∀ (pre suf suf2 : List MatrixElement) (bad : MatrixElement)
        (cth : ℝ) (diff : Bool),
        r.max_level_energy KEa < bad.level_energy →
        summed_xs_loop pdf r KEa cth diff (r.max_level_energy KEa)
            (pre ++ bad :: suf)
          = summed_xs_loop pdf r KEa cth diff (r.max_level_energy KEa)
            (pre ++ bad :: suf2)) ∧
    (∀ (pdg : ℤ) (ev : EventSummary),
        r.create_event pdf gen pdg KEa = Except.ok ev →
        ev.E_level ≤ r.max_level_energy KEa) := by
  constructor
  · intro pre suf suf2 bad cth diff hbad
    exact summed_xs_loop_stops pdf r KEa cth diff
      (r.max_level_energy KEa) bad hbad pre suf suf2
  · intro pdg ev hok
    simp only [NuclearReaction.create_event] at hok
    by_cases h1 : pdg ≠ r.pdg_a
    · rw [if_pos h1] at hok
      exact Except.noConfusion hok
    · rw [if_neg h1] at hok
      by_cases h2 : KEa < r.KEa_threshold
      · rw [if_pos h2] at hok
        exact Except.noConfusion hok
      · rw [if_neg h2] at hok
        by_cases hw : (r.summed_xs_helper pdf pdg KEa 0 false).2.isEmpty = true
        · rw [if_pos hw] at hok
          exact Except.noConfusion hok
        · rw [if_neg hw] at hok
          by_cases hsle : (r.summed_xs_helper pdf pdg KEa 0 false).1 ≤ 0
          · rw [if_pos hsle] at hok
            exact Except.noConfusion hok
          · rw [if_neg hsle] at hok
            have hne : (r.summed_xs_helper pdf pdg KEa 0 false).2 ≠ [] := by
              intro hnil
              exact hw (by rw [hnil]; rfl)
            have hk : ¬ KEa ≤ 0 := by
              intro hk0
              exact hne
                (by rw [summed_xs_helper_nonpos pdf r pdg KEa 0 false hk0])
            have hl : (r.summed_xs_helper pdf pdg KEa 0 false).2
                = (summed_xs_loop pdf r KEa 0 false (r.max_level_energy KEa)
                    r.matrix_elements).2 := by
              rw [summed_xs_helper_passes pdf r pdg KEa 0 false
                (not_not.mp h1) (by simp) hk]
            have hidx := hgen _ hne
            injection hok with hev
            subst hev
            rw [hl] at hidx ⊢
            exact summed_xs_loop_index_le pdf r KEa 0 false
              (r.max_level_energy KEa) r.matrix_elements _ hidx

/-- Witness for C2 at a concrete one-element sorted reaction and the
index-0 generator oracle. -/
theorem claim_C2_witness :
    (∀ (pre suf suf2 : List MatrixElement) (bad : MatrixElement)
        (cth : ℝ) (diff : Bool),
        rOne.max_level_energy 4 < bad.level_energy →
        summed_xs_loop pdf0 rOne 4 cth diff (rOne.max_level_energy 4)
            (pre ++ bad :: suf)
          = summed_xs_loop pdf0 rOne 4 cth diff (rOne.max_level_energy 4)
            (pre ++ bad :: suf2)) ∧
    (∀ (pdg : ℤ) (ev : EventSummary),
        rOne.create_event pdf0 gen0 pdg 4 = Except.ok ev →
        ev.E_level ≤ rOne.max_level_energy 4) :=
  claim_C2_sampled_level_bounded pdf0 rOne gen0 4 (by simp [rOne])
    (by
      intro ws hws
      cases ws with
      | nil => exact absurd rfl hws
      | cons a l => simp [gen0])

end

end Marley
